import Mathlib

/-!
Verification development for the terminal failure-detection and suggestion
pipeline of this repository.

The definitions below are a shallow embedding of the TypeScript sources:

* `src/type_frontend/src/components/Terminal.tsx` — the `detectAndHandleError`
  orchestrator (output classifier, immediate-repeat suppression, the
  command-not-found / node / python command fixups, the dedup cache keyed by
  `command|||errorLine|||floor(now/30)`, and the suggestion request flow);
* `src/type_frontend/src/utils/commandFixerAgent.ts` — the pre-network phase of
  `commandFixerAgent` (command rewriting, empty-command and API-key checks) and
  the multi-strategy `parseSuggestions` reply parser;
* `src/unnamed/part_003` — the tilde-separator variant of `parseSuggestions`.

JavaScript string semantics are modelled on `List Char`:
`String.prototype.includes` is case-sensitive substring search, `trim`
removes leading/trailing whitespace, regexes are modelled by hand-rolled
matchers that follow the JS backtracking semantics of the concrete patterns
appearing in the source (greedy/lazy quantifiers, `.` not matching `\n`/`\r`,
the `i` flag lowering ASCII letters).  All definitions are executable.
-/

/-! ## JS character classes (ASCII fragment, which is all the source patterns use) -/

/-- JS `\s` (ASCII fragment): space, tab, newline, carriage return, vertical tab, form feed. -/
def isJsSpace (c : Char) : Bool :=
  c = ' ' || c = '\t' || c = '\n' || c = '\r' || c = Char.ofNat 11 || c = Char.ofNat 12

/-- JS `\w`: ASCII letters, digits and underscore. -/
def isWordChar (c : Char) : Bool :=
  decide ((97 ≤ c.toNat ∧ c.toNat ≤ 122) ∨ (65 ≤ c.toNat ∧ c.toNat ≤ 90) ∨
    (48 ≤ c.toNat ∧ c.toNat ≤ 57) ∨ c = '_')

/-- JS `\d`. -/
def isDigitCh (c : Char) : Bool := decide (48 ≤ c.toNat ∧ c.toNat ≤ 57)

/-- Characters NOT matched by JS `.` (without the `s` flag): `\n` and `\r`. -/
def isNlCh (c : Char) : Bool := c = '\n' || c = '\r'

/-- ASCII lower-casing, as the `i` regex flag acts on the ASCII-only patterns in the source. -/
def lowerCh (c : Char) : Char :=
  if 65 ≤ c.toNat ∧ c.toNat ≤ 90 then Char.ofNat (c.toNat + 32) else c

/-! ## List-of-characters string primitives -/

/-- `isPfx p l` : `p` is a prefix of `l`. -/
def isPfx : List Char → List Char → Bool
  | [], _ => true
  | _ :: _, [] => false
  | a :: as, b :: bs => if a = b then isPfx as bs else false

/-- `containsCL n l` : `n` occurs as a contiguous substring of `l`
(JS `String.prototype.includes`, case-sensitive). -/
def containsCL (n : List Char) : List Char → Bool
  | [] => isPfx n []
  | l@(_ :: rest) => isPfx n l || containsCL n rest

/-- Scan all suffixes of `l` left to right for a local match `f`
(leftmost-match semantics of an unanchored JS regex). -/
def scanFor (f : List Char → Option (List Char)) : List Char → Option (List Char)
  | [] => f []
  | l@(_ :: rest) =>
    match f l with
    | some r => some r
    | none => scanFor f rest

/-- Any suffix satisfies the local predicate `p`. -/
def anySfx (p : List Char → Bool) : List Char → Bool
  | [] => p []
  | l@(_ :: rest) => p l || anySfx p rest

/-- JS `String.prototype.trim` on a character list (ASCII whitespace fragment). -/
def jsTrimCL (l : List Char) : List Char :=
  ((l.dropWhile isJsSpace).reverse.dropWhile isJsSpace).reverse

/-- JS `trim` on `String`. -/
def jsTrimStr (s : String) : String := ⟨jsTrimCL s.data⟩

/-- JS `hay.includes(needle)` on `String` (case-sensitive). -/
def containsStr (hay needle : String) : Bool := containsCL needle.data hay.data

/-- JS `s.startsWith(p)` on `String`. -/
def strStartsWith (s p : String) : Bool := isPfx p.data s.data

/-- First index of character `c` in `l` (JS `indexOf` when it finds something). -/
def idxOfCh (c : Char) : List Char → Option Nat
  | [] => none
  | a :: rest => if a = c then some 0 else (idxOfCh c rest).map (· + 1)

/-- Length of the maximal whitespace run at the front of `l`. -/
def wsRunLen (l : List Char) : Nat := (l.takeWhile isJsSpace).length

/-- JS `String.prototype.replace` with a plain-string pattern replaces the
first occurrence only (used as `cmd.replace("-ver", "-v")` in the source). -/
def replaceFirstCL (pat rep : List Char) : List Char → List Char
  | [] => []
  | l@(c :: rest) =>
    if isPfx pat l then rep ++ l.drop pat.length
    else c :: replaceFirstCL pat rep rest

/-- `replaceFirst` on `String`. -/
def replaceFirst (s pat rep : String) : String := ⟨replaceFirstCL pat.data rep.data s.data⟩

/-! ## Decimal rendering of a JS number in a template literal

The dedup key of `Terminal.tsx` is built with
`` `${cmd}|||${err}|||${Math.floor(t/30)}` `` — the bucket number is rendered
in decimal.  `natRepr` is that decimal rendering, with a proved round-trip
(`ofDigits_natRepr`) giving injectivity. -/

def digitCh (d : Nat) : Char := Char.ofNat (48 + d)

/-- Digit accumulation with structural fuel (`n + 1` steps always suffice,
since the value shrinks by a factor of ten per step); structural recursion
keeps the definition kernel-reducible for `decide`. -/
def natReprAux : Nat → Nat → List Char → List Char
  | 0, _, acc => acc
  | fuel + 1, n, acc =>
    if n < 10 then digitCh n :: acc
    else natReprAux fuel (n / 10) (digitCh (n % 10) :: acc)

def natRepr (n : Nat) : String := ⟨natReprAux (n + 1) n []⟩

/-- Decimal value of a digit string (left fold). -/
def ofDigits (l : List Char) : Nat := l.foldl (fun a c => a * 10 + (c.toNat - 48)) 0

theorem natReprAux_append (fuel n : Nat) (acc : List Char) :
    natReprAux fuel n acc = natReprAux fuel n [] ++ acc := by
  induction fuel generalizing n acc with
  | zero => simp [natReprAux]
  | succ fuel ih =>
    by_cases h : n < 10
    · simp [natReprAux, h]
    · simp only [natReprAux, if_neg h]
      rw [ih (n / 10), ih (n / 10) [digitCh (n % 10)]]
      simp

theorem digitCh_toNat : ∀ d : Nat, d < 10 → (digitCh d).toNat = 48 + d := by decide

theorem ofDigits_append_digit (l : List Char) (c : Char) :
    ofDigits (l ++ [c]) = ofDigits l * 10 + (c.toNat - 48) := by
  simp [ofDigits, List.foldl_append]

theorem ofDigits_natReprAux (fuel n : Nat) (hn : n < fuel) :
    ofDigits (natReprAux fuel n []) = n := by
  induction fuel generalizing n with
  | zero => omega
  | succ fuel ih =>
    by_cases h : n < 10
    · simp [natReprAux, h, ofDigits, digitCh_toNat n h]
    · simp only [natReprAux, if_neg h]
      rw [natReprAux_append, ofDigits_append_digit]
      have hlt : n / 10 < fuel := by
        have hdiv : n / 10 < n := Nat.div_lt_self (by omega) (by decide)
        omega
      rw [ih (n / 10) hlt, digitCh_toNat (n % 10) (Nat.mod_lt n (by omega))]
      omega

theorem ofDigits_natRepr (n : Nat) : ofDigits (natRepr n).data = n :=
  ofDigits_natReprAux (n + 1) n (by omega)

theorem natRepr_inj {m n : Nat} (h : natRepr m = natRepr n) : m = n := by
  have := congrArg (fun s => ofDigits (String.data s)) h
  simpa [ofDigits_natRepr] using this

/-! ## The dedup cache (Terminal.tsx lines 285–302)

The source stores strings `command|||errorLine|||bucket` in a `Set<string>`,
checks membership and, when fresh, adds the key.  The set is modelled as a
`List String` with the same membership semantics. -/

/-- The dedup key `` `${cmd}|||${err}|||${Math.floor(Math.floor(Date.now()/1000) / 30)}` ``;
`t` is the current time in seconds. -/
def dedupKey (c e : String) (t : Nat) : String :=
  c ++ "|||" ++ e ++ "|||" ++ natRepr (t / 30)

/-- `shouldProcess pairs c e t`: the dedup decision of the source — `false` iff
the key is already recorded; otherwise record it and answer `true`. -/
def shouldProcess (pairs : List String) (c e : String) (t : Nat) :
    Bool × List String :=
  let k := dedupKey c e t
  if k ∈ pairs then (false, pairs) else (true, k :: pairs)

theorem dedupKey_bucket_congr (c e : String) {t t' : Nat} (h : t / 30 = t' / 30) :
    dedupKey c e t = dedupKey c e t' := by
  simp [dedupKey, h]

theorem dedupKey_bucket_ne (c e : String) {t t' : Nat} (h : t / 30 ≠ t' / 30) :
    dedupKey c e t ≠ dedupKey c e t' := by
  intro heq
  apply h
  apply natRepr_inj
  have hd := congrArg String.data heq
  simp only [dedupKey] at hd
  have : (c ++ "|||" ++ e ++ "|||").data ++ (natRepr (t / 30)).data =
      (c ++ "|||" ++ e ++ "|||").data ++ (natRepr (t' / 30)).data := by
    simpa [String.data_append, List.append_assoc] using hd
  exact String.ext (List.append_cancel_left this)

/-- C1: `shouldProcess(c, e, t)` is true on the first call and records the key
`(c, e, floor(t/30))`; a second call with the same command and error line and
any `t'` in the same 30-second bucket returns false; once the bucket of `t'`
has advanced past that of `t`, the call returns true again. -/
theorem c1_shouldProcess_window (c e : String) (t t' : Nat) :
    (shouldProcess [] c e t).1 = true ∧
    dedupKey c e t ∈ (shouldProcess [] c e t).2 ∧
    (t / 30 = t' / 30 → (shouldProcess (shouldProcess [] c e t).2 c e t').1 = false) ∧
    (t / 30 < t' / 30 → (shouldProcess (shouldProcess [] c e t).2 c e t').1 = true) := by
  refine ⟨by simp [shouldProcess], by simp [shouldProcess], ?_, ?_⟩
  · intro h
    have hk : dedupKey c e t' = dedupKey c e t := (dedupKey_bucket_congr c e h.symm)
    simp [shouldProcess, hk]
  · intro h
    have hk : dedupKey c e t ≠ dedupKey c e t' := dedupKey_bucket_ne c e (by omega)
    simp [shouldProcess, hk.symm]

/-- Witness for C1: with the key recorded at `t = 0`, the bucket of `t' = 31`
has advanced, and the call is allowed again. -/
theorem c1_shouldProcess_window_witness :
    (0 : Nat) / 30 < 31 / 30 ∧
    (shouldProcess (shouldProcess [] "mk" "zsh: command not found: mk" 0).2
      "mk" "zsh: command not found: mk" 31).1 = true :=
  ⟨by decide, (c1_shouldProcess_window "mk" "zsh: command not found: mk" 0 31).2.2.2 (by decide)⟩

/-! ## The output classifier (Terminal.tsx lines 85–139)

Each entry of the `errorPatterns` array is modelled as a case-insensitive
matcher on the lower-cased character list.  Most patterns are plain substring
tests; the four genuine regexes (`/command not found:\s\w+/i`,
`/bad option\s+-ver/i`, `/\/.*node:.*bad option/i`, `/python:.*error/i`) get
dedicated matchers reproducing their backtracking behaviour. -/

/-- `/command not found:\s\w+/i` on the lower-cased list: the literal followed by
exactly one whitespace character and at least one word character. -/
def patCnfColonWord (low : List Char) : Bool :=
  anySfx
    (fun l =>
      isPfx "command not found:".data l &&
      match l.drop 18 with
      | c1 :: c2 :: _ => isJsSpace c1 && isWordChar c2
      | [c1] => isJsSpace c1 && false
      | [] => false)
    low

/-- `/bad option\s+-ver/i` on the lower-cased list: the literal, a non-empty
whitespace run, then `-ver`. -/
def patBadOptVer (low : List Char) : Bool :=
  anySfx
    (fun l =>
      isPfx "bad option".data l &&
      (let r := l.drop 10
       let w := wsRunLen r
       decide (0 < w) && isPfx "-ver".data (r.drop w)))
    low

/-- `/\/.*node:.*bad option/i` on the lower-cased list: a `/`, then — within the
same line, since `.` does not cross `\n`/`\r` — `node:` followed later by
`bad option`. -/
def patSlashNodeBadOpt (low : List Char) : Bool :=
  anySfx
    (fun l =>
      match l with
      | '/' :: r =>
        anySfx
          (fun t => isPfx "node:".data t && containsCL "bad option".data ((t.drop 5).takeWhile (fun c => !isNlCh c)))
          (r.takeWhile (fun c => !isNlCh c))
      | _ => false)
    low

/-- `/python:.*error/i` on the lower-cased list. -/
def patPythonErr (low : List Char) : Bool :=
  anySfx
    (fun t => isPfx "python:".data t && containsCL "error".data ((t.drop 7).takeWhile (fun c => !isNlCh c)))
    low

/-- Case-insensitive substring test against a pre-lowered haystack. -/
def ciHas (low : List Char) (lit : String) : Bool := containsCL lit.data low

/-- The disjunction of the `errorPatterns` array (Terminal.tsx lines 85–122),
in source order, applied to a character list. -/
def anyPatCL (l : List Char) : Bool :=
  let low := l.map lowerCh
  ciHas low "command not found" ||
  patCnfColonWord low ||
  ciHas low "permission denied" ||
  ciHas low "no such file or directory" ||
  ciHas low "cannot access" ||
  ciHas low "error:" ||
  ciHas low "failed:" ||
  ciHas low "bad option:" ||
  patBadOptVer low ||
  ciHas low "bad option" ||
  patSlashNodeBadOpt low ||
  ciHas low "unknown option" ||
  ciHas low "unrecognized option" ||
  ciHas low "invalid option" ||
  ciHas low "not a directory" ||
  ciHas low "not recognized" ||
  ciHas low "invalid" ||
  ciHas low "missing" ||
  ciHas low "unexpected" ||
  ciHas low "syntax error" ||
  ciHas low "segmentation fault" ||
  ciHas low "traceback" ||
  ciHas low "exception" ||
  ciHas low "cannot" ||
  ciHas low "could not" ||
  ciHas low "unrecognized command" ||
  ciHas low "unknown command" ||
  ciHas low "illegal option" ||
  ciHas low "bad flag" ||
  ciHas low "bad flag syntax" ||
  ciHas low "unknown flag" ||
  ciHas low "unknown option" ||
  patPythonErr low ||
  ciHas low "modulenotfounderror" ||
  ciHas low "importerror" ||
  ciHas low "attributeerror"

/-- `errorPatterns.some((p) => p.test(s))` on a `String`. -/
def anyPat (s : String) : Bool := anyPatCL s.data

/-- JS `data.split(/\r?\n/)`: split at every `\n`, consuming a `\r` that
immediately precedes it; a lone `\r` is not a separator. -/
def splitLinesCL : List Char → List (List Char)
  | [] => [[]]
  | '\r' :: '\n' :: rest => [] :: splitLinesCL rest
  | '\n' :: rest => [] :: splitLinesCL rest
  | c :: rest =>
    match splitLinesCL rest with
    | [] => [[c]]
    | l :: ls => (c :: l) :: ls

/-- `data.split(/\r?\n/).filter((line) => line.trim())` — the non-blank lines
of a chunk, as strings (Terminal.tsx line 134). -/
def linesOfChunk (data : String) : List String :=
  ((splitLinesCL data.data).filter (fun l => !(jsTrimCL l).isEmpty)).map (fun l => ⟨l⟩)

/-- `lines.find((line) => errorPatterns.some((p) => p.test(line)))` — the
evidence line of a chunk (Terminal.tsx lines 137–139). -/
def findEvidence (data : String) : Option String :=
  (linesOfChunk data).find? (fun l => anyPat l)

/-! ## Command-name extraction from a command-not-found evidence line
(Terminal.tsx lines 169–186; the same regexes appear in commandFixerAgent.ts) -/

/-- Case-insensitive literal prefix test against an original-cased list. -/
def ciPfx (lit : String) (l : List Char) : Bool :=
  isPfx lit.data ((l.take lit.data.length).map lowerCh)

/-- Local matcher for `/\w+:\s+command not found:\s+(\w+)/i` at one position:
word run, colon, whitespace run, the literal, whitespace run, captured word run.
All quantifiers are greedy and — the character classes being disjoint from the
following literals — deterministic.  The `i` flag affects only the literal;
the capture keeps its original casing, as in JS. -/
def tryShellCnfAt (l : List Char) : Option (List Char) :=
  let w := l.takeWhile isWordChar
  if w.isEmpty then none
  else
    match l.drop w.length with
    | ':' :: r =>
      let ws := wsRunLen r
      if ws = 0 then none
      else
        let r2 := r.drop ws
        if ciPfx "command not found:" r2 then
          let r3 := r2.drop 18
          let ws2 := wsRunLen r3
          if ws2 = 0 then none
          else
            let cap := (r3.drop ws2).takeWhile isWordChar
            if cap.isEmpty then none else some cap
        else none
    | _ => none

/-- Local matcher for the case-sensitive `/([^\s:]+):\s+command not found/`:
non-space-non-colon run, colon, whitespace run, the literal. -/
def tryBasicCnfAt (l : List Char) : Option (List Char) :=
  let w := l.takeWhile (fun c => !isJsSpace c && decide (c ≠ ':'))
  if w.isEmpty then none
  else
    match l.drop w.length with
    | ':' :: r =>
      let ws := wsRunLen r
      if ws = 0 then none
      else if isPfx "command not found".data (r.drop ws) then some w else none
    | _ => none

/-- Terminal.tsx lines 171–185: first try the shell form
`<word>: command not found: <name>` (case-insensitive), then fall back to
`<name>: command not found` (case-sensitive); the capture is `.trim()`ed. -/
def extractCommandName (e : String) : Option String :=
  match scanFor tryShellCnfAt e.data with
  | some cap => some ⟨jsTrimCL cap⟩
  | none => (scanFor tryBasicCnfAt e.data).map (fun cap => ⟨jsTrimCL cap⟩)

/-! ## The per-session orchestrator state and its step function -/

/-- A parsed `{command, description}` suggestion. -/
structure CommandSuggestion where
  command : String
  description : String
deriving DecidableEq, Repr

/-- The refs of the `Terminal` component that the failure pipeline reads and
writes: the re-entrancy flag, last submitted command, in-progress input buffer,
last processed evidence line, bounded recent-command history, and the dedup
key set (modelled as a list with set membership). -/
structure TermState where
  processingError : Bool
  lastCommand : String
  currentCommand : String
  lastError : String
  commandHistory : List String
  processedPairs : List String
deriving DecidableEq, Repr

/-- What one `detectAndHandleError` invocation did, mirroring the externally
visible calls of the source: `busy` (re-entrancy guard), `noError` (no pattern
matched the chunk), `noEvidence` (chunk matched but no single line did),
`duplicateError` (immediate-repeat suppression), `errorOnly` (no last command:
only the error message is shown), `dedupSkipped` (key already recorded),
`pythonForced` (the forced `python --v` re-fetch delivered its suggestions),
`delivered` (suggestions event for command/error/key), `requestFailed`
(the fetch threw; locally fabricated fallback suggestions, possibly empty). -/
inductive Outcome where
  | busy
  | noError
  | noEvidence
  | duplicateError (e : String)
  | errorOnly (e : String)
  | dedupSkipped (c e k : String)
  | pythonForced (e : String) (sugg : List CommandSuggestion)
  | delivered (c e k : String) (sugg : List CommandSuggestion)
  | requestFailed (c e k : String) (fallback : List CommandSuggestion)
deriving DecidableEq, Repr

/-- Outcomes in which the dedup test answered `true` and a suggestion request
was actually issued. -/
def Outcome.isAllowed : Outcome → Bool
  | .pythonForced _ _ => true
  | .delivered _ _ _ _ => true
  | .requestFailed _ _ _ _ => true
  | _ => false

/-- The command the invocation carried into the dedup key and the suggestion
request, when it got that far. -/
def Outcome.reqCommand : Outcome → Option String
  | .dedupSkipped c _ _ => some c
  | .delivered c _ _ _ => some c
  | .requestFailed c _ _ _ => some c
  | .pythonForced _ _ => some "python --v"
  | _ => none

/-- The dedup key the invocation formed, when it got that far. -/
def Outcome.reqKey : Outcome → Option String
  | .dedupSkipped _ _ k => some k
  | .delivered _ _ k _ => some k
  | .requestFailed _ _ k _ => some k
  | _ => none

/-- Terminal.tsx lines 169–214: on a `command not found` evidence line, extract
the failing command's name; prefer a recent-history entry equal to it or
starting with `name + " "` (the `Array.prototype.find` returns the FIRST such
entry in insertion order, i.e. the oldest); else overwrite `lastCommand` with
the name unless it already equals it or starts with `name + " "`; then reset
the processed-pairs set entirely.  If no name is extractable, nothing happens. -/
def cnfFixup (s : TermState) (e : String) : TermState :=
  if containsStr e "command not found" then
    match extractCommandName e with
    | some name =>
      let s' :=
        match s.commandHistory.find?
            (fun c => decide (c = name) || strStartsWith c (name ++ " ")) with
        | some recent => { s with lastCommand := recent }
        | none =>
          if !strStartsWith s.lastCommand (name ++ " ") && decide (s.lastCommand ≠ name) then
            { s with lastCommand := name }
          else s
      { s' with processedPairs := [] }
    | none => s
  else s

/-- Terminal.tsx lines 217–220: the node-version error test. -/
def isNodeVersionErr (e : String) : Bool :=
  (containsStr e "bad option" && containsStr e "-ver") ||
  patSlashNodeBadOpt (e.data.map lowerCh)

/-- Terminal.tsx lines 222–230. -/
def nodeFixup (s : TermState) (e : String) : TermState :=
  if isNodeVersionErr e && !containsStr s.lastCommand "node" then
    { s with lastCommand := "node -ver" }
  else s

/-- Terminal.tsx lines 233–237: the python-option error test. -/
def isPythonOptErr (e : String) : Bool :=
  (containsStr e "python" || decide (e = "unknown option --v")) &&
  (containsStr e "unknown option" || containsStr e "invalid option")

/-- Terminal.tsx lines 239–251. -/
def pythonFixup (s : TermState) (e : String) : TermState :=
  if isPythonOptErr e && !containsStr s.lastCommand "python" then
    if containsStr e "--v" || containsStr e "-ver" || decide (e = "unknown option --v") then
      { s with lastCommand := "python --v" }
    else s
  else s

/-- Terminal.tsx lines 305–313: push `lastCommand` into the recent-command
history unless already present, evicting the oldest entry past capacity 10. -/
def pushHistory (s : TermState) : TermState :=
  if s.lastCommand ∈ s.commandHistory then s
  else
    let h := s.commandHistory ++ [s.lastCommand]
    { s with commandHistory := if h.length > 10 then h.tail else h }

/-- Terminal.tsx lines 435–443: the trailing `setTimeout` that clears the
re-entrancy flag and resets the input buffer when it equals the last command. -/
def finishTimeout (s : TermState) : TermState :=
  { s with
    processingError := false
    currentCommand := if s.currentCommand = s.lastCommand then "" else s.currentCommand }

/-- Terminal.tsx lines 400–421: fallback suggestions fabricated when the fetch
throws. -/
def fallbackSuggestions (cmd e : String) : List CommandSuggestion :=
  if containsStr cmd "-ver" then
    [⟨replaceFirst cmd "-ver" "-v", "Use -v instead of -ver for version flag"⟩]
  else if containsStr cmd "node" && containsStr e "bad option" then
    [⟨"node -v", "Show Node.js version"⟩, ⟨"node -h", "Show Node.js help"⟩]
  else []

/-- Terminal.tsx lines 354–396: deliver the fetched suggestions, substituting
the single `-ver → -v` placeholder when the batch is empty. -/
def deliver (s : TermState) (et k : String) (suggs : List CommandSuggestion) :
    TermState × Outcome :=
  if suggs.isEmpty then
    (finishTimeout s,
      .delivered s.lastCommand et k
        [⟨replaceFirst s.lastCommand "-ver" "-v", "Possible correction for invalid flag"⟩])
  else (finishTimeout s, .delivered s.lastCommand et k suggs)

/-- Terminal.tsx lines 278–444: the body run after an evidence line survived
the immediate-repeat check and the fixups.  `f1` is the outcome of the
`commandFixerAgent` call for the (possibly fixed-up) last command, `f2` the
outcome of the forced `python --v` re-fetch; `.error` models a throw. -/
def processDetected (s : TermState) (e : String) (t : Nat)
    (f1 f2 : Except Unit (List CommandSuggestion)) : TermState × Outcome :=
  if s.lastCommand = "" then (finishTimeout s, .errorOnly e)
  else
    let et := jsTrimStr e
    let k := dedupKey s.lastCommand et t
    if k ∈ s.processedPairs then
      ({ s with processingError := false }, .dedupSkipped s.lastCommand et k)
    else
      let s5 := pushHistory { s with processedPairs := k :: s.processedPairs }
      match f1 with
      | .error _ =>
        (finishTimeout s5, .requestFailed s5.lastCommand et k (fallbackSuggestions s5.lastCommand e))
      | .ok suggs =>
        if decide (et = "unknown option --v") && !containsStr s5.lastCommand "python" then
          match f2 with
          | .error _ =>
            (finishTimeout s5, .requestFailed s5.lastCommand et k (fallbackSuggestions s5.lastCommand e))
          | .ok ps =>
            if ps.isEmpty then deliver s5 et k suggs
            else ({ s5 with processingError := true }, .pythonForced et ps)
        else deliver s5 et k suggs

/-- One invocation of `detectAndHandleError` (Terminal.tsx lines 75–455) on an
output chunk `data` at time `t` (seconds): the re-entrancy guard, the
whole-chunk pattern test, evidence-line selection, immediate-repeat
suppression, the command fixups, and the dedup-gated suggestion request. -/
def detect (s : TermState) (data : String) (t : Nat)
    (f1 f2 : Except Unit (List CommandSuggestion)) : TermState × Outcome :=
  if s.processingError then (s, .busy)
  else if !anyPat data then (s, .noError)
  else
    match findEvidence data with
    | none => ({ s with processingError := false }, .noEvidence)
    | some e =>
      if s.lastError = e then ({ s with processingError := false }, .duplicateError e)
      else
        processDetected
          (pythonFixup (nodeFixup (cnfFixup { s with lastError := e } e) e) e) e t f1 f2

/-! ## The multi-strategy reply parser
(`parseSuggestions`, commandFixerAgent.ts lines 251–364)

Each of the four numbered-line regexes is anchored; their quantifier
interplay is resolved per JS backtracking semantics and recorded in the doc
comment of each matcher. -/

/-- `^\d+\.` : greedy digit run (non-empty) followed by a literal dot — the
classes being disjoint, deterministic.  Returns what follows the dot. -/
def stripNum (l : List Char) : Option (List Char) :=
  let d := l.takeWhile isDigitCh
  if d.isEmpty then none
  else
    match l.drop d.length with
    | '.' :: rest => some rest
    | _ => none

/-- `\s*(.+)$` on `t`: the greedy `\s*` takes the maximal whitespace prefix
that still leaves a non-empty remainder; `.` does not match `\n`/`\r`, and with
the `$` anchor the capture is the whole remainder, so a remainder containing a
newline character fails for every backtracking split.  When `t` is all
whitespace the capture degenerates to the last character. -/
def spaceStarRest (t : List Char) : Option (List Char) :=
  let d := t.drop (wsRunLen t)
  if !d.isEmpty then
    if d.all (fun c => !isNlCh c) then some d else none
  else
    match t.reverse with
    | [] => none
    | c :: _ => if isNlCh c then none else some [c]

/-- `\s+(.+)$` on `t`: as `spaceStarRest` but the whitespace run must keep at
least one character. -/
def spacePlusRest (t : List Char) : Option (List Char) :=
  let w := wsRunLen t
  if w = 0 then none
  else
    let d := t.drop w
    if !d.isEmpty then
      if d.all (fun c => !isNlCh c) then some d else none
    else if w ≥ 2 then
      match t.reverse with
      | [] => none
      | c :: _ => if isNlCh c then none else some [c]
    else none

/-- Patterns 1 and 2 (`/^\d+\.\s+([^→]+)→\s*(.+)$/` and
`/^\d+\.\s+([^:]+):\s*(.+)$/`) share one shape: after the numbered head, the
greedy `\s+` and the greedy negated class (which may itself hold whitespace)
jointly consume everything before the FIRST separator occurrence, the
whitespace run keeping as much as it can while leaving the group non-empty. -/
def sepNumPat (sep : Char) (l : List Char) : Option (List Char × List Char) :=
  match stripNum l with
  | none => none
  | some rest =>
    match idxOfCh sep rest with
    | none => none
    | some p =>
      if p < 2 then none
      else
        match rest with
        | [] => none
        | c0 :: _ =>
          if !isJsSpace c0 then none
          else
            let k := min (wsRunLen rest) (p - 1)
            match spaceStarRest (rest.drop (p + 1)) with
            | some g2 => some ((rest.drop k).take (p - k), g2)
            | none => none

/-- Pattern 3 `/^\d+\.\s+([^-]+) - \s*(.+)$/`: the negated class cannot cross
the first hyphen, so the ` - ` literal must sit exactly around it — the
character before the first `-` and the one after it must both be plain spaces,
with the group ending just before that space. -/
def pat3 (l : List Char) : Option (List Char × List Char) :=
  match stripNum l with
  | none => none
  | some rest =>
    match idxOfCh '-' rest with
    | none => none
    | some p =>
      if p < 3 then none
      else
        match rest with
        | [] => none
        | c0 :: _ =>
          if !isJsSpace c0 then none
          else if (rest.drop (p - 1)).take 1 ≠ [' '] ∨ (rest.drop (p + 1)).take 1 ≠ [' '] then
            none
          else
            let k := min (wsRunLen rest) (p - 2)
            match spaceStarRest (rest.drop (p + 2)) with
            | some g2 => some ((rest.drop k).take (p - 1 - k), g2)
            | none => none

/-- Quote characters of pattern 4's class (backtick, single and double quote). -/
def isQuoteCh (c : Char) : Bool := c = Char.ofNat 96 || c = Char.ofNat 39 || c = '"'

/-- After a candidate closing quote in pattern 4: ` +-+ (.+)$` — a space run,
a hyphen run, one space, then a non-empty newline-free remainder; all three
runs are deterministic the same way as above. -/
def pat4Close (t : List Char) : Option (List Char) :=
  let sp := t.takeWhile (fun c => c = ' ')
  if sp.isEmpty then none
  else
    let t2 := t.drop sp.length
    let hy := t2.takeWhile (fun c => c = '-')
    if hy.isEmpty then none
    else
      match t2.drop hy.length with
      | ' ' :: d => if !d.isEmpty && d.all (fun c => !isNlCh c) then some d else none
      | _ => none

/-- The lazy `(.*?)` of pattern 4: grow the group one character at a time
(characters must be non-newline), and at each quote character first try to
close; the first position where the whole remainder matches wins. -/
def pat4Scan (acc : List Char) : List Char → Option (List Char × List Char)
  | [] => none
  | c :: rest =>
    if isQuoteCh c then
      match pat4Close rest with
      | some d => some (acc.reverse, d)
      | none => if isNlCh c then none else pat4Scan (c :: acc) rest
    else if isNlCh c then none
    else pat4Scan (c :: acc) rest

/-- Pattern 4 ``/^\d+\.\s+[`'"](.*?)[`'"] +-+ (.+)$/``: numbered head, greedy
whitespace (deterministic — quote characters are not whitespace), an opening
quote, then the lazy scan. -/
def pat4 (l : List Char) : Option (List Char × List Char) :=
  match stripNum l with
  | none => none
  | some rest =>
    let w := wsRunLen rest
    if w = 0 then none
    else
      match rest.drop w with
      | q :: body => if isQuoteCh q then pat4Scan [] body else none
      | [] => none

/-- `.replace(/[`'"]/g, "")` — global removal of quote characters. -/
def removeQuoteChars (l : List Char) : List Char := l.filter (fun c => !isQuoteCh c)

/-- `.replace(/^\s*[\w-]+:\s*/, "")` — strip one leading `label:` artifact:
optional whitespace, a non-empty word/hyphen run, a colon, optional
whitespace; all runs deterministic. -/
def stripLabelArtifact (l : List Char) : List Char :=
  let r := l.drop (wsRunLen l)
  let run := r.takeWhile (fun c => isWordChar c || c = '-')
  if run.isEmpty then l
  else
    match r.drop run.length with
    | ':' :: r2 => r2.drop (wsRunLen r2)
    | _ => l

/-- The allow-list of the two fallback layers, in alternation order. -/
def allowToks : List (List Char) :=
  ["git", "node", "npm", "python", "pip", "cd", "ls", "mkdir", "rm", "cp", "mv",
    "echo", "cat", "ssh", "curl", "wget", "docker", "kubectl"].map String.data

/-- The alternation `(git|node|…)` anchored at the start of `ft`,
case-insensitively; no alternative is a prefix of another, so at most one
matches and JS's ordered alternation reduces to `find?`. -/
def findAllowTok (ft : List Char) : Option (List Char) :=
  allowToks.find? (fun a => isPfx a ((ft.take a.length).map lowerCh))

/-- Lines 296–331: the last-resort handler applied to the trimmed body of a
numbered line no earlier pattern matched.  `commandMatch[2]` (the `(\s+.+)?`
group) is the token's tail whenever it starts with whitespace — the body being
trimmed and newline-free, the greedy `.+` runs to its end.  Note the command
pushed in the token-with-space branch is `cmd + commandMatch[2]`, i.e. the text
before the first space re-joined with everything after the token. -/
def lastResortLine (ft : List Char) : CommandSuggestion :=
  match findAllowTok ft with
  | some a =>
    let tl := ft.drop a.length
    let g2 : Option (List Char) :=
      match tl with
      | c :: _ => if isJsSpace c then some tl else none
      | [] => none
    match g2, idxOfCh ' ' ft with
    | some g, some i =>
      if 0 < i then
        let desc := jsTrimCL (ft.drop i)
        ⟨⟨ft.take i ++ g⟩, if desc.isEmpty then "Suggested command" else ⟨desc⟩⟩
      else ⟨⟨ft⟩, "Suggested command"⟩
    | _, _ => ⟨⟨ft⟩, "Suggested command"⟩
  | none =>
    match idxOfCh ' ' ft with
    | some i =>
      if 0 < i then ⟨⟨ft.take i⟩, ⟨jsTrimCL (ft.drop i)⟩⟩
      else ⟨⟨ft⟩, "Suggested command"⟩
    | none => ⟨⟨ft⟩, "Suggested command"⟩

/-- One iteration of the tail `(?:\s+[\w\-\./ ]+)+` of the final-sweep regex:
greedy `\s+`, then a greedy class run; when the character after the whitespace
run is outside the class, backtracking hands trailing plain spaces (the only
characters in both `\s` and the class) back to the class run. -/
def sweepCls (c : Char) : Bool := isWordChar c || c = '-' || c = '.' || c = '/' || c = ' '

def sweepIter1 (t : List Char) : Option Nat :=
  let w := wsRunLen t
  if w = 0 then none
  else
    let cr := (t.drop w).takeWhile sweepCls
    if !cr.isEmpty then some (w + cr.length)
    else
      match (((t.take w).enum).filter (fun p => decide (0 < p.1) && decide (p.2 = ' '))).reverse with
      | [] => none
      | (k, _) :: _ => some (k + 1)

def sweepGo : Nat → List Char → Nat
  | 0, _ => 0
  | fuel + 1, t =>
    match sweepIter1 t with
    | none => 0
    | some n => n + sweepGo fuel (t.drop n)

/-- Total consumption of `(?:\s+[\w\-\./ ]+)+` (at least one iteration);
each iteration consumes ≥ 2 characters, so `t.length` steps of fuel suffice. -/
def sweepTail (t : List Char) : Option Nat :=
  match sweepIter1 t with
  | none => none
  | some n => some (n + sweepGo t.length (t.drop n))

/-- One line of the final sweep (lines 343–360): the anchored
`^\d+\.\s+((?:git|…)(?:\s+[\w\-\./ ]+)+)/i`; the command is `match[1].trim()`,
the description the line with the whole match removed (the match is a prefix,
so `replace` drops it) and trimmed, defaulting to `"Suggested command"`. -/
def sweepLine (l : List Char) : List CommandSuggestion :=
  match stripNum l with
  | none => []
  | some rest =>
    let w := wsRunLen rest
    if w = 0 then []
    else
      let r2 := rest.drop w
      match findAllowTok r2 with
      | none => []
      | some a =>
        match sweepTail (r2.drop a.length) with
        | none => []
        | some n =>
          let g1 := r2.take (a.length + n)
          let m0len := (l.length - rest.length) + w + a.length + n
          let desc := jsTrimCL (l.drop m0len)
          [⟨⟨jsTrimCL g1⟩, if desc.isEmpty then "Suggested command" else ⟨desc⟩⟩]

/-- The per-line step of the main loop (lines 258–335): try patterns 1–4 in
order; on a match, trim, remove quote characters and strip a label artifact
from the command, trim and remove quote characters from the description;
otherwise, on a non-blank numbered line, apply the last-resort handler. -/
def parseLine (line : String) : List CommandSuggestion :=
  let cl := line.data
  match sepNumPat '→' cl <|> sepNumPat ':' cl <|> pat3 cl <|> pat4 cl with
  | some (g1, g2) =>
    [⟨⟨stripLabelArtifact (removeQuoteChars (jsTrimCL g1))⟩,
      ⟨removeQuoteChars (jsTrimCL g2)⟩⟩]
  | none =>
    if (jsTrimCL cl).isEmpty then []
    else
      match stripNum cl >>= spacePlusRest with
      | some body => [lastResortLine (jsTrimCL body)]
      | none => []

/-- JS `text.split("\n")`. -/
def splitNlCL : List Char → List (List Char)
  | [] => [[]]
  | '\n' :: rest => [] :: splitNlCL rest
  | c :: rest =>
    match splitNlCL rest with
    | [] => [[c]]
    | l :: ls => (c :: l) :: ls

/-- `parseSuggestions` (commandFixerAgent.ts lines 251–364): run the per-line
strategies over every line; if that yields nothing, run the final sweep over
every line. -/
def parseSuggestions (text : String) : List CommandSuggestion :=
  let lines := splitNlCL text.data
  let main := (lines.map (fun l => parseLine ⟨l⟩)).flatten
  if main.isEmpty then (lines.map sweepLine).flatten else main

/-! ## The tilde-separator parser variant (src/unnamed/part_003, lines 136–189) -/

namespace Part003

/-- `/^(.+?)\s*~\s*(.+)$/` on a line: the lazy `(.+?)` (non-newline characters,
at least one) grows until a tilde is reachable through only whitespace; JS's
backtracking order explores tildes left to right and, for each, the shortest
group, so the match lands on the first tilde whose remainder satisfies
`\s*(.+)$`.  `q` is the index of the candidate tilde, accumulated in `pre`
(reversed). -/
def tildeScan (pre : List Char) : List Char → Option (List Char × List Char)
  | [] => none
  | '~' :: tail =>
    let q := pre.length
    (if q = 0 then none
     else
       let wsEnd := (pre.takeWhile isJsSpace).length
       let k := max 1 (q - wsEnd)
       let g1 := (pre.reverse).take k
       if g1.all (fun c => !isNlCh c) then
         match spaceStarRest tail with
         | some g2 => some (g1, g2)
         | none => none
       else none) <|>
    tildeScan ('~' :: pre) tail
  | c :: tail => tildeScan (c :: pre) tail

/-- `parseSuggestions` of the part_003 variant: the `"Command is valid"`
sentinel, then per line the anchored tilde form, then the `indexOf("~")`
fallback split. -/
def parseSuggestions (text : String) : List CommandSuggestion :=
  if containsStr text "Command is valid. No suggestions needed." then
    [⟨"Command is valid. No suggestions needed.", ""⟩]
  else
    ((splitNlCL text.data).map (fun l =>
      if (jsTrimCL l).isEmpty then ([] : List CommandSuggestion)
      else
        match tildeScan [] l with
        | some (g1, g2) => [⟨⟨jsTrimCL g1⟩, ⟨jsTrimCL g2⟩⟩]
        | none =>
          match idxOfCh '~' l with
          | some i =>
            if 0 < i then
              let command := jsTrimCL (l.take i)
              let desc := jsTrimCL (l.drop (i + 1))
              if !command.isEmpty then
                [⟨⟨command⟩, if desc.isEmpty then "Suggested command" else ⟨desc⟩⟩]
              else []
            else []
          | none => [])).flatten

end Part003

/-! ## The pre-network phase of `commandFixerAgent`
(commandFixerAgent.ts lines 38–213)

The function rewrites `userCommand` from the error message (the
command-not-found extraction, then the `unknown option --v` python special
case), then throws on an empty command, then throws on a missing API key, and
only then performs the HTTP call.  `.error` means the corresponding exception
was thrown and nothing was sent upstream; `.ok c` means the network request
embedding command `c` was issued. -/

inductive FixerError where
  | inputError
  | configError
deriving DecidableEq, Repr

deriving instance DecidableEq for Except

/-- Lines 53–158: the command rewriting performed before any check. -/
def rewriteCommand (userCommand errorMessage : String) : String :=
  let uc1 :=
    if containsStr errorMessage "command not found" then
      match (scanFor tryShellCnfAt errorMessage.data).map (fun cap => (⟨jsTrimCL cap⟩ : String)) with
      | some name => name
      | none =>
        match (scanFor tryBasicCnfAt errorMessage.data).map (fun cap => (⟨jsTrimCL cap⟩ : String)) with
        | some name =>
          if userCommand = name || strStartsWith userCommand (name ++ " ") then name
          else userCommand
        | none => userCommand
    else userCommand
  if (decide (errorMessage = "unknown option --v") || containsStr errorMessage "unknown option --v")
      && !containsStr uc1 "python" then
    "python --v"
  else uc1

/-- Lines 160–212: the guarded request.  The empty-command check precedes the
API-key check; both precede the network call. -/
def commandFixerRequest (apiKey : Option String) (userCommand errorMessage : String) :
    Except FixerError String :=
  let uc := rewriteCommand userCommand errorMessage
  if uc = "" ∨ jsTrimStr uc = "" then .error .inputError
  else if apiKey = none then .error .configError
  else .ok uc

/-! ## Supporting lemmas -/

theorem find?_first {α : Type} (p : α → Bool) (l : List α) (a : α)
    (h : l.find? p = some a) :
    p a = true ∧ ∃ i : Nat, l[i]? = some a ∧
      ∀ j : Nat, j < i → ∀ x, l[j]? = some x → p x = false := by
  induction l with
  | nil => simp at h
  | cons b tl ih =>
    rw [List.find?_cons] at h
    by_cases hb : p b
    · simp [hb] at h
      subst h
      exact ⟨hb, 0, by simp, by omega⟩
    · simp [hb] at h
      obtain ⟨hpa, i, hi, hfirst⟩ := ih h
      refine ⟨hpa, i + 1, by simpa using hi, ?_⟩
      intro j hj x hx
      match j with
      | 0 =>
        simp at hx
        subst hx
        simpa using hb
      | j' + 1 =>
        exact hfirst j' (by omega) x (by simpa using hx)

theorem scanFor_some {f : List Char → Option (List Char)} {l cap : List Char}
    (h : scanFor f l = some cap) : ∃ t, f t = some cap := by
  induction l with
  | nil => exact ⟨[], by simpa [scanFor] using h⟩
  | cons c rest ih =>
    rw [scanFor] at h
    cases hf : f (c :: rest) with
    | some r => rw [hf] at h; exact ⟨c :: rest, by simp [hf, ← h]⟩
    | none => rw [hf] at h; exact ih h

theorem jsTrim_cons_ne {c : Char} {cs : List Char} (hc : isJsSpace c = false) :
    jsTrimCL (c :: cs) ≠ [] := by
  intro habs
  have h1 : List.dropWhile isJsSpace (c :: cs) = c :: cs := by
    rw [List.dropWhile_cons, hc]
    simp
  rw [jsTrimCL, h1, List.reverse_eq_nil_iff, List.dropWhile_eq_nil_iff] at habs
  exact absurd (habs c (by simp)) (by simp [hc])

theorem isEmpty_false_of_ne_nil {l : List Char} (h : l ≠ []) : l.isEmpty = false := by
  cases l with
  | nil => exact absurd rfl h
  | cons a as => rfl

theorem jsSpace_le_32 {c : Char} (h : isJsSpace c = true) : c.toNat ≤ 32 := by
  simp only [isJsSpace, Bool.or_eq_true, decide_eq_true_eq] at h
  have hd : c = ' ' ∨ c = '\t' ∨ c = '\n' ∨ c = '\x0d' ∨ c = Char.ofNat 11 ∨
      c = Char.ofNat 12 := by tauto
  rcases hd with h1 | h1 | h1 | h1 | h1 | h1 <;> subst h1 <;> decide

theorem wordChar_not_space {c : Char} (h : isWordChar c = true) : isJsSpace c = false := by
  by_contra habs
  rw [Bool.not_eq_false] at habs
  have h32 := jsSpace_le_32 habs
  simp only [isWordChar, decide_eq_true_eq] at h
  rcases h with h | h | h | h
  · omega
  · omega
  · omega
  · subst h
    exact absurd h32 (by decide)

theorem cons_head_prop {p : Char → Bool} {l : List Char} {c : Char} {cs : List Char}
    (hcap : l.takeWhile p = c :: cs) : p c = true :=
  List.mem_takeWhile_imp (p := p) (l := l) (by rw [hcap]; exact List.mem_cons_self c cs)

theorem takeWhile_head (p : Char → Bool) (l : List Char)
    (h : ¬(l.takeWhile p).isEmpty = true) :
    ∃ c cs, l.takeWhile p = c :: cs ∧ p c = true := by
  rcases hcap : l.takeWhile p with _ | ⟨c, cs⟩
  · rw [hcap] at h
    simp at h
  · exact ⟨c, cs, rfl, cons_head_prop hcap⟩

theorem tryShellCnfAt_some {l cap : List Char} (h : tryShellCnfAt l = some cap) :
    ∃ c cs, cap = c :: cs ∧ isWordChar c = true := by
  simp only [tryShellCnfAt] at h
  split at h
  · exact absurd h (by simp)
  · split at h
    · split at h
      · exact absurd h (by simp)
      · split at h
        · split at h
          · exact absurd h (by simp)
          · split at h
            · exact absurd h (by simp)
            · rw [Option.some_inj] at h
              subst h
              exact takeWhile_head _ _ (by assumption)
        · exact absurd h (by simp)
    · exact absurd h (by simp)

theorem tryBasicCnfAt_some {l cap : List Char} (h : tryBasicCnfAt l = some cap) :
    ∃ c cs, cap = c :: cs ∧ isJsSpace c = false := by
  simp only [tryBasicCnfAt] at h
  split at h
  · exact absurd h (by simp)
  · split at h
    · split at h
      · exact absurd h (by simp)
      · split at h
        · rw [Option.some_inj] at h
          subst h
          obtain ⟨c, cs, hcap, hp⟩ := takeWhile_head _ _ (by assumption)
          simp only [Bool.and_eq_true, Bool.not_eq_true'] at hp
          exact ⟨c, cs, hcap, hp.1⟩
        · exact absurd h (by simp)
    · exact absurd h (by simp)

theorem extractCommandName_ne_empty {e name : String}
    (h : extractCommandName e = some name) : name ≠ "" := by
  simp only [extractCommandName] at h
  cases hs : scanFor tryShellCnfAt e.data with
  | some cap =>
    rw [hs] at h
    obtain ⟨t, ht⟩ := scanFor_some hs
    obtain ⟨c, cs, hcap, hw⟩ := tryShellCnfAt_some ht
    simp only [Option.some.injEq] at h
    subst hcap
    subst h
    intro habs
    exact jsTrim_cons_ne (wordChar_not_space hw) (congrArg String.data habs)
  | none =>
    rw [hs] at h
    cases hb : scanFor tryBasicCnfAt e.data with
    | none => rw [hb] at h; simp at h
    | some cap =>
      rw [hb] at h
      obtain ⟨t, ht⟩ := scanFor_some hb
      obtain ⟨c, cs, hcap, hns⟩ := tryBasicCnfAt_some ht
      simp only [Option.map] at h
      simp only [Option.some.injEq] at h
      subst hcap
      subst h
      intro habs
      exact jsTrim_cons_ne hns (congrArg String.data habs)

theorem strStartsWith_ne_empty {c p : String} (hp : p.data ≠ [])
    (h : strStartsWith c p = true) : c ≠ "" := by
  intro habs
  subst habs
  cases hpd : p.data with
  | nil => exact hp hpd
  | cons a as => simp [strStartsWith, hpd, isPfx] at h

theorem string_append_space_data (name : String) :
    (name ++ " ").data = name.data ++ [' '] := by
  simp [String.data_append]

theorem cnfFixup_spec {s : TermState} {e name : String}
    (h4 : containsStr e "command not found" = true)
    (h5 : extractCommandName e = some name) :
    (cnfFixup s e).processedPairs = [] ∧
    (cnfFixup s e).lastCommand =
      (match s.commandHistory.find?
          (fun c => decide (c = name) || strStartsWith c (name ++ " ")) with
        | some recent => recent
        | none =>
          if !strStartsWith s.lastCommand (name ++ " ") && decide (s.lastCommand ≠ name)
          then name else s.lastCommand) ∧
    (cnfFixup s e).lastCommand ≠ "" := by
  have hname : name ≠ "" := extractCommandName_ne_empty h5
  cases hf : s.commandHistory.find?
      (fun c => decide (c = name) || strStartsWith c (name ++ " ")) with
  | some recent =>
    have hpred := List.find?_some hf
    simp only [Bool.or_eq_true, decide_eq_true_eq] at hpred
    refine ⟨by simp [cnfFixup, h4, h5, hf], by simp [cnfFixup, h4, h5, hf], ?_⟩
    have hlc : (cnfFixup s e).lastCommand = recent := by simp [cnfFixup, h4, h5, hf]
    rw [hlc]
    rcases hpred with hq | hq
    · subst hq; exact hname
    · exact strStartsWith_ne_empty (by simp [string_append_space_data]) hq
  | none =>
    by_cases hcond :
        (!strStartsWith s.lastCommand (name ++ " ") && decide (s.lastCommand ≠ name)) = true
    · refine ⟨by simp [cnfFixup, h4, h5, hf],
        by simp only [cnfFixup, h4, if_true, h5, hf]; split <;> rfl, ?_⟩
      have hlc : (cnfFixup s e).lastCommand = name := by
        simp only [cnfFixup, h4, if_true, h5, hf]
        rw [if_pos hcond]
      rw [hlc]
      exact hname
    · refine ⟨by simp [cnfFixup, h4, h5, hf],
        by simp only [cnfFixup, h4, if_true, h5, hf]; split <;> rfl, ?_⟩
      have hlc : (cnfFixup s e).lastCommand = s.lastCommand := by
        simp only [cnfFixup, h4, if_true, h5, hf]
        rw [if_neg hcond]
      rw [hlc]
      simp only [Bool.and_eq_true, Bool.not_eq_true', decide_eq_true_eq, not_and,
        Bool.not_eq_false] at hcond
      by_cases hsw : strStartsWith s.lastCommand (name ++ " ") = true
      · exact strStartsWith_ne_empty (by simp [string_append_space_data]) hsw
      · have := hcond (by simpa using hsw)
        rw [not_not] at this
        subst this
        exact hname

theorem nodeFixup_spec (s : TermState) (e : String) :
    (nodeFixup s e).processedPairs = s.processedPairs ∧
    ((nodeFixup s e).lastCommand = s.lastCommand ∨ (nodeFixup s e).lastCommand = "node -ver") := by
  simp only [nodeFixup]
  split <;> simp

theorem pythonFixup_spec (s : TermState) (e : String) :
    (pythonFixup s e).processedPairs = s.processedPairs ∧
    ((pythonFixup s e).lastCommand = s.lastCommand ∨
      (pythonFixup s e).lastCommand = "python --v") := by
  simp only [pythonFixup]
  split
  · split <;> simp
  · simp

theorem pushHistory_spec (s : TermState) :
    (pushHistory s).processedPairs = s.processedPairs ∧
    (pushHistory s).lastCommand = s.lastCommand := by
  simp only [pushHistory]
  split <;> simp

theorem finishTimeout_spec (s : TermState) :
    (finishTimeout s).processedPairs = s.processedPairs ∧
    (finishTimeout s).lastCommand = s.lastCommand := ⟨rfl, rfl⟩

/-- Running `detect` past the guards: with the re-entrancy flag clear, a
matching chunk, an evidence line distinct from the previous one, the
invocation is the fixups followed by the async body. -/
theorem detect_run (s : TermState) (d e : String) (t : Nat)
    (f1 f2 : Except Unit (List CommandSuggestion))
    (h0 : s.processingError = false) (h1 : anyPat d = true)
    (h2 : findEvidence d = some e) (h3 : s.lastError ≠ e) :
    detect s d t f1 f2 =
      processDetected (pythonFixup (nodeFixup (cnfFixup { s with lastError := e } e) e) e)
        e t f1 f2 := by
  simp [detect, h0, h1, h2, h3]

theorem processDetected_fresh {s : TermState} {e : String} {t : Nat}
    (f1 f2 : Except Unit (List CommandSuggestion))
    (hlc : s.lastCommand ≠ "") (hpp : s.processedPairs = []) :
    (processDetected s e t f1 f2).2.isAllowed = true ∧
    (processDetected s e t f1 f2).1.processedPairs =
      [dedupKey s.lastCommand (jsTrimStr e) t] := by
  constructor <;>
    (simp only [processDetected, deliver, hpp]
     rw [if_neg hlc, if_neg (List.not_mem_nil _)]
     rcases f1 with u | suggs
     · simp [finishTimeout, (pushHistory_spec _).1, Outcome.isAllowed]
     · repeat' split
       all_goals
         simp [finishTimeout, (pushHistory_spec _).1, Outcome.isAllowed])

theorem processDetected_req {s : TermState} {e : String} {t : Nat}
    (f1 f2 : Except Unit (List CommandSuggestion))
    (hlc : s.lastCommand ≠ "") (hpy : jsTrimStr e ≠ "unknown option --v") :
    (processDetected s e t f1 f2).2.reqCommand = some s.lastCommand ∧
    (processDetected s e t f1 f2).2.reqKey =
      some (dedupKey s.lastCommand (jsTrimStr e) t) := by
  have hdec : decide (jsTrimStr e = "unknown option --v") = false := by
    simpa using hpy
  constructor <;>
    (simp only [processDetected, deliver, hdec, Bool.false_and, Bool.false_eq_true, if_false]
     rw [if_neg hlc]
     by_cases hmem : dedupKey s.lastCommand (jsTrimStr e) t ∈ s.processedPairs
     · rw [if_pos hmem]
       simp [Outcome.reqCommand, Outcome.reqKey]
     · rw [if_neg hmem]
       rcases f1 with u | suggs
       · simp [Outcome.reqCommand, Outcome.reqKey, (pushHistory_spec _).2]
       · repeat' split
         all_goals
           simp [Outcome.reqCommand, Outcome.reqKey, (pushHistory_spec _).2])

theorem processDetected_requestFailed {s : TermState} {e : String} {t : Nat}
    {f1 f2 : Except Unit (List CommandSuggestion)} {c et k : String}
    {fb : List CommandSuggestion}
    (h : (processDetected s e t f1 f2).2 = .requestFailed c et k fb) :
    c = s.lastCommand ∧ et = jsTrimStr e ∧ k = dedupKey s.lastCommand (jsTrimStr e) t ∧
    (processDetected s e t f1 f2).1.processedPairs = k :: s.processedPairs := by
  simp only [processDetected, deliver] at h ⊢
  by_cases hlc : s.lastCommand = ""
  · rw [if_pos hlc] at h
    simp at h
  · rw [if_neg hlc] at h ⊢
    by_cases hmem : dedupKey s.lastCommand (jsTrimStr e) t ∈ s.processedPairs
    · rw [if_pos hmem] at h
      simp at h
    · rw [if_neg hmem] at h ⊢
      rcases f1 with u | suggs
      · simp only at h
        obtain ⟨hc, het, hk, _⟩ := by simpa using h.symm
        refine ⟨?_, het, hk, ?_⟩
        · rw [hc, (pushHistory_spec _).2]
        · rw [hk]
          simp [finishTimeout, (pushHistory_spec _).1]
      · simp only at h ⊢
        by_cases hpy : (decide (jsTrimStr e = "unknown option --v") && !containsStr (pushHistory { s with processedPairs := dedupKey s.lastCommand (jsTrimStr e) t :: s.processedPairs }).lastCommand "python") = true
        · rw [if_pos hpy] at h ⊢
          rcases f2 with u2 | ps
          · simp only at h
            obtain ⟨hc, het, hk, _⟩ := by simpa using h.symm
            refine ⟨?_, het, hk, ?_⟩
            · rw [hc, (pushHistory_spec _).2]
            · rw [hk]
              simp [finishTimeout, (pushHistory_spec _).1]
          · simp only at h
            by_cases hps : ps.isEmpty = true
            · rw [if_pos hps] at h
              by_cases hsug : suggs.isEmpty = true
              · rw [if_pos hsug] at h
                simp at h
              · rw [if_neg hsug] at h
                simp at h
            · rw [if_neg hps] at h
              simp at h
        · rw [if_neg hpy] at h ⊢
          by_cases hsug : suggs.isEmpty = true
          · rw [if_pos hsug] at h
            simp at h
          · rw [if_neg hsug] at h
            simp at h

/-- Inverting `detect`: only the final branch can produce a `requestFailed`
outcome. -/
theorem detect_requestFailed_inv {s : TermState} {d : String} {t : Nat}
    {f1 f2 : Except Unit (List CommandSuggestion)} {c et k : String}
    {fb : List CommandSuggestion}
    (h : (detect s d t f1 f2).2 = .requestFailed c et k fb) :
    ∃ e, s.processingError = false ∧ anyPat d = true ∧
      findEvidence d = some e ∧ s.lastError ≠ e := by
  by_cases h0 : s.processingError
  · rw [detect, if_pos h0] at h
    simp at h
  · by_cases h1 : anyPat d
    · cases hfe : findEvidence d with
      | none =>
        rw [detect, if_neg h0] at h
        simp only [h1, Bool.not_true, Bool.false_eq_true, if_false, hfe] at h
        simp at h
      | some e =>
        by_cases h3 : s.lastError = e
        · rw [detect, if_neg h0] at h
          simp only [h1, Bool.not_true, Bool.false_eq_true, if_false, hfe, if_pos h3] at h
          simp at h
        · exact ⟨e, by simpa using h0, h1, rfl, h3⟩
    · rw [detect, if_neg h0] at h
      simp only [Bool.not_eq_true] at h1
      simp only [h1, Bool.not_false, if_true] at h
      simp at h

/-! ## Further supporting lemmas for the parser claims -/

theorem takeWhile_cons_head {p : Char → Bool} {l : List Char} {c : Char} {cs : List Char}
    (h : l.takeWhile p = c :: cs) : ∃ t, l = c :: t := by
  cases l with
  | nil => simp at h
  | cons a as =>
    rw [List.takeWhile_cons] at h
    by_cases hp : p a
    · simp only [hp, if_true] at h
      injection h with h1 h2
      exact ⟨as, by rw [h1]⟩
    · simp [hp] at h

theorem digit_not_space {c : Char} (h : isDigitCh c = true) : isJsSpace c = false := by
  by_contra habs
  rw [Bool.not_eq_false] at habs
  have h32 := jsSpace_le_32 habs
  simp only [isDigitCh, decide_eq_true_eq] at h
  omega

theorem stripNum_trim_ne {l r : List Char} (h : stripNum l = some r) :
    (jsTrimCL l).isEmpty = false := by
  simp only [stripNum] at h
  split at h
  · simp at h
  · obtain ⟨c, cs, hcap, hp⟩ := takeWhile_head _ _ (by assumption)
    obtain ⟨tl, htl⟩ := takeWhile_cons_head hcap
    rw [htl]
    exact isEmpty_false_of_ne_nil (jsTrim_cons_ne (digit_not_space hp))

/-! ## The claim theorems -/

/-- C2 (counterexample): the evidence line `"command not found"` is classified
(the first pattern matches it) and contains the phrase, yet neither regex can
extract a command name from it, so the cache is NOT cleared: with the key for
`("mk", "command not found", bucket 0)` already recorded, the invocation is
dedup-suppressed — `shouldProcess` does not return true, contradicting the
claim's "for every classified evidence line containing command not found". -/
theorem c2_counterexample :
    detect ⟨false, "mk", "", "", [], ["mk|||command not found|||0"]⟩
        "command not found" 0 (.ok []) (.ok []) =
      (⟨false, "mk", "", "command not found", [], ["mk|||command not found|||0"]⟩,
        .dedupSkipped "mk" "command not found" "mk|||command not found|||0") ∧
    (Outcome.dedupSkipped "mk" "command not found"
        "mk|||command not found|||0").isAllowed = false := by
  constructor <;> decide

/-- C2 (amended): when the command-not-found evidence line DOES yield a command
name through one of the two extraction regexes, the ENTIRE processed-pairs set
(not merely the entries scoped to the current command) is cleared before the
key test, so the request is allowed regardless of prior cache contents, and
the resulting cache holds exactly the new key. -/
theorem c2_cnf_reset_allows (s : TermState) (d e name : String) (t : Nat)
    (f1 f2 : Except Unit (List CommandSuggestion))
    (h0 : s.processingError = false) (h1 : anyPat d = true)
    (h2 : findEvidence d = some e) (h3 : s.lastError ≠ e)
    (h4 : containsStr e "command not found" = true)
    (h5 : extractCommandName e = some name) :
    (detect s d t f1 f2).2.isAllowed = true ∧
    ∃ c, (detect s d t f1 f2).1.processedPairs = [dedupKey c (jsTrimStr e) t] := by
  rw [detect_run s d e t f1 f2 h0 h1 h2 h3]
  have hcnf := cnfFixup_spec (s := { s with lastError := e }) h4 h5
  have hnode := nodeFixup_spec (cnfFixup { s with lastError := e } e) e
  have hpyf := pythonFixup_spec (nodeFixup (cnfFixup { s with lastError := e } e) e) e
  have hpp : (pythonFixup (nodeFixup (cnfFixup { s with lastError := e } e) e) e).processedPairs
      = [] := by
    rw [hpyf.1, hnode.1, hcnf.1]
  have hlc : (pythonFixup (nodeFixup (cnfFixup { s with lastError := e } e) e) e).lastCommand
      ≠ "" := by
    rcases hpyf.2 with hh | hh
    · rw [hh]
      rcases hnode.2 with hh2 | hh2
      · rw [hh2]
        exact hcnf.2.2
      · rw [hh2]
        decide
    · rw [hh]
      decide
  obtain ⟨ha, hp⟩ := processDetected_fresh f1 f2 hlc hpp
  exact ⟨ha, _, hp⟩

/-- Witness for C2 (amended): the very key about to be formed is already in
the cache, yet the run is allowed because the cache is wiped first. -/
theorem c2_cnf_reset_allows_witness :
    extractCommandName "zsh: command not found: mk" = some "mk" ∧
    (detect ⟨false, "mk", "", "", [], [dedupKey "mk" "zsh: command not found: mk" 0]⟩
      "zsh: command not found: mk\r\n" 0
      (.ok [⟨"mkdir", "Create directory"⟩]) (.ok [])).2.isAllowed = true :=
  ⟨by decide,
    (c2_cnf_reset_allows ⟨false, "mk", "", "", [], [dedupKey "mk" "zsh: command not found: mk" 0]⟩
      "zsh: command not found: mk\r\n" "zsh: command not found: mk" "mk" 0
      (.ok [⟨"mkdir", "Create directory"⟩]) (.ok [])
      rfl (by decide) (by decide) (by decide) (by decide) (by decide)).1⟩

/-- C3: the chunk is split handling both bare and CR-prefixed line endings;
when a pattern matches the whole chunk, the evidence is the first non-blank
line that itself matches a pattern (witnessed by the `find?` characterisation);
when no individual line matches despite the whole-chunk match, the state is
unchanged and the outcome is `noEvidence` (a non-failure); the example chunk
`"zsh: command not found: mk\r\n"` yields the evidence line without the CRLF. -/
theorem c3_classifier_evidence (data : String) (h : anyPat data = true) :
    (∀ e, findEvidence data = some e →
      anyPat e = true ∧ ∃ i : Nat, (linesOfChunk data)[i]? = some e ∧
        ∀ j : Nat, j < i → ∀ x, (linesOfChunk data)[j]? = some x → anyPat x = false) ∧
    (findEvidence data = none → ∀ (s : TermState) (t : Nat)
      (f1 f2 : Except Unit (List CommandSuggestion)),
      s.processingError = false → detect s data t f1 f2 = (s, Outcome.noEvidence)) ∧
    linesOfChunk "zsh: command not found: mk\r\n" = ["zsh: command not found: mk"] ∧
    findEvidence "zsh: command not found: mk\r\n" = some "zsh: command not found: mk" := by
  refine ⟨?_, ?_, by decide, by decide⟩
  · intro e he
    exact find?_first _ _ _ he
  · intro hnone s t f1 f2 hs
    cases s with
    | mk pe lc cc le ch pp =>
      simp only at hs
      subst hs
      simp [detect, h, hnone]

/-- Witness for C3 at the example chunk of the claim. -/
theorem c3_classifier_evidence_witness :
    anyPat "zsh: command not found: mk\r\n" = true ∧
    findEvidence "zsh: command not found: mk\r\n" = some "zsh: command not found: mk" :=
  ⟨by decide, (c3_classifier_evidence "zsh: command not found: mk\r\n" (by decide)).2.2.2⟩

/-- C4: when the extracted evidence line equals the immediately preceding one
(`lastError`), the invocation stops before everything downstream: the state is
returned unchanged — in particular the dedup cache is neither consulted nor
modified, the repeat check sitting strictly before the key test. -/
theorem c4_immediate_repeat (s : TermState) (d e : String) (t : Nat)
    (f1 f2 : Except Unit (List CommandSuggestion))
    (h0 : s.processingError = false) (h1 : anyPat d = true)
    (h2 : findEvidence d = some e) (h3 : s.lastError = e) :
    detect s d t f1 f2 = (s, .duplicateError e) := by
  cases s with
  | mk pe lc cc le ch pp =>
    simp only at h0 h3
    subst h0
    subst h3
    simp [detect, h1, h2]

/-- Witness for C4: an identical repeat of the example chunk is suppressed
with the state (including a still-empty cache) untouched. -/
theorem c4_immediate_repeat_witness :
    findEvidence "zsh: command not found: mk\r\n" = some "zsh: command not found: mk" ∧
    detect ⟨false, "mk", "", "zsh: command not found: mk", [], []⟩
        "zsh: command not found: mk\r\n" 0 (.ok []) (.ok []) =
      (⟨false, "mk", "", "zsh: command not found: mk", [], []⟩,
        .duplicateError "zsh: command not found: mk") :=
  ⟨by decide,
    c4_immediate_repeat ⟨false, "mk", "", "zsh: command not found: mk", [], []⟩
      "zsh: command not found: mk\r\n" "zsh: command not found: mk" 0 (.ok []) (.ok [])
      rfl (by decide) (by decide) rfl⟩

/-- C5: the primary numbered arrow-separator format round-trips through the
parser: `"1. node -v → Show Node.js version"` yields exactly the one
suggestion `{command := "node -v", description := "Show Node.js version"}`. -/
theorem c5_parse_arrow_roundtrip :
    parseSuggestions "1. node -v → Show Node.js version" =
      [⟨"node -v", "Show Node.js version"⟩] := by decide

/-- C6: the un-numbered tilde-separated form is among the strategies the
parser tries — realised by the part_003 variant of `parseSuggestions`, whose
primary per-line strategy is exactly `<command> ~ <description>`:
`"mkdir ~ Create directory"` yields the single suggestion
`{command := "mkdir", description := "Create directory"}`. -/
theorem c6_parse_tilde_form :
    Part003.parseSuggestions "mkdir ~ Create directory" =
      [⟨"mkdir", "Create directory"⟩] := by decide

/-- C7 (counterexample): for the numbered line `"1. git status"`, whose body
begins with the allow-list token `git`, the claim predicts the split
`{command := "git", description := "status"}`; the code instead pushes
`cmd + commandMatch[2]` — the whole body — as the command.  Likewise
`"1. foo bar"` (no allow-list token) is split at the first space rather than
kept whole with a placeholder description. -/
theorem c7_counterexample :
    parseSuggestions "1. git status" = [⟨"git status", "status"⟩] ∧
    ("git status" : String) ≠ "git" ∧
    parseSuggestions "1. foo bar" = [⟨"foo", "bar"⟩] ∧
    ("bar" : String) ≠ "Suggested command" := by
  refine ⟨by decide, by decide, by decide, by decide⟩

/-- C7 (amended): for a numbered reply line matched by no earlier strategy,
with trimmed body `ft`: if `ft` begins with an allow-list token followed by
whitespace and contains a plain space at a positive index `i`, the emitted
command is `ft.take i ++ ft.drop |token|` (the text before the first space
re-joined with the token's tail — the whole body when the token is followed
by a plain space) and the description is the text after the first space
(placeholder when blank); if no token matches, the body is split at the first
space when one exists at a positive index, and only otherwise is the whole
body kept as the command with the placeholder description. -/
theorem c7_last_resort_amended (line : String) (body ft : List Char)
    (h1 : sepNumPat '→' line.data = none) (h2 : sepNumPat ':' line.data = none)
    (h3 : pat3 line.data = none) (h4 : pat4 line.data = none)
    (hb : stripNum line.data >>= spacePlusRest = some body)
    (hft : ft = jsTrimCL body) :
    (∀ a c tl, findAllowTok ft = some a → ft.drop a.length = c :: tl →
      isJsSpace c = true → ∀ i, idxOfCh ' ' ft = some i → 0 < i →
        parseLine line = [⟨⟨ft.take i ++ ft.drop a.length⟩,
          if (jsTrimCL (ft.drop i)).isEmpty then "Suggested command"
          else ⟨jsTrimCL (ft.drop i)⟩⟩]) ∧
    (findAllowTok ft = none → ∀ i, idxOfCh ' ' ft = some i → 0 < i →
      parseLine line = [⟨⟨ft.take i⟩, ⟨jsTrimCL (ft.drop i)⟩⟩]) ∧
    (findAllowTok ft = none → idxOfCh ' ' ft = none →
      parseLine line = [⟨⟨ft⟩, "Suggested command"⟩]) := by
  have hblank : (jsTrimCL line.data).isEmpty = false := by
    rcases hbind : stripNum line.data with _ | r
    · rw [hbind] at hb
      simp at hb
    · exact stripNum_trim_ne hbind
  have hpl : parseLine line = [lastResortLine ft] := by
    simp [parseLine, h1, h2, h3, h4, hblank, hb, hft]
  refine ⟨?_, ?_, ?_⟩
  · intro a c tl ha hdrop hsp i hi hpos
    rw [hpl]
    simp [lastResortLine, ha, hdrop, hsp, hi, hpos]
  · intro hnone i hi hpos
    rw [hpl]
    simp [lastResortLine, hnone, hi, hpos]
  · intro hnone hidx
    rw [hpl]
    simp [lastResortLine, hnone, hidx]

/-- Witness for C7 (amended) at `"1. git status"`. -/
theorem c7_last_resort_amended_witness :
    (0 : Nat) < 3 ∧ parseLine "1. git status" = [⟨"git status", "status"⟩] :=
  ⟨by decide, by
    have h := (c7_last_resort_amended "1. git status" "git status".data "git status".data
      (by decide) (by decide) (by decide) (by decide) (by decide) (by decide)).1
      "git".data ' ' "status".data (by decide) (by decide) (by decide) 3 (by decide) (by decide)
    rw [h]
    decide⟩

/-- C8 (counterexample): `fetch("", "zsh: command not found: mk")` with a
configured key does NOT fail with `InputError`: the command-not-found
rewriting installs the extracted command `mk` before the empty-command check,
and the request goes upstream. -/
theorem c8_counterexample :
    commandFixerRequest (some "sk-test") "" "zsh: command not found: mk" = .ok "mk" ∧
    (Except.ok "mk" : Except FixerError String) ≠ .error .inputError := by
  refine ⟨by decide, by decide⟩

/-- C8 (amended): when the (post-rewriting) command is blank the call fails
with `InputError` and nothing is sent upstream (`.error` means no request is
issued); with no configured credential and a non-blank post-rewriting command
it fails with `ConfigError` before any network call; and when the error line
triggers neither the command-not-found nor the `unknown option --v`
rewriting, the command is passed through unchanged — so an empty argument
then does fail with `InputError`. -/
theorem c8_guard_amended (apiKey : Option String) (uc em : String) :
    (jsTrimStr (rewriteCommand uc em) = "" →
      commandFixerRequest apiKey uc em = .error .inputError) ∧
    (apiKey = none → jsTrimStr (rewriteCommand uc em) ≠ "" →
      commandFixerRequest apiKey uc em = .error .configError) ∧
    (containsStr em "command not found" = false → em ≠ "unknown option --v" →
      containsStr em "unknown option --v" = false → rewriteCommand uc em = uc) := by
  refine ⟨?_, ?_, ?_⟩
  · intro htrim
    simp [commandFixerRequest, htrim]
  · intro hkey htrim
    have hne : ¬(rewriteCommand uc em = "" ∨ jsTrimStr (rewriteCommand uc em) = "") := by
      rintro (hh | hh)
      · exact htrim (by rw [hh]; decide)
      · exact htrim hh
    simp [commandFixerRequest, hne, hkey]
  · intro hcnf hneq hsub
    simp [rewriteCommand, hcnf, hsub, hneq]

/-- Witness for C8 (amended): an empty command with an unrecognised error line
fails with `InputError` (and, separately instantiated, a missing key with a
usable command fails with `ConfigError`). -/
theorem c8_guard_amended_witness :
    jsTrimStr (rewriteCommand "" "boom") = "" ∧
    commandFixerRequest (some "sk-test") "" "boom" = .error .inputError :=
  ⟨by decide, (c8_guard_amended (some "sk-test") "" "boom").1 (by decide)⟩

/-- C9: whenever an invocation ends in `requestFailed` — the fetch threw after
the dedup test had answered true and recorded the key — the key equals
`dedupKey command errorLine t`, it is still present in the resulting cache
(no rollback on error), and any identical failure in the same 30-second
bucket is suppressed by `shouldProcess` even though no suggestions were
delivered for the first one. -/
theorem c9_no_rollback (s : TermState) (d : String) (t : Nat)
    (f1 f2 : Except Unit (List CommandSuggestion)) (c e k : String)
    (fb : List CommandSuggestion)
    (h : (detect s d t f1 f2).2 = .requestFailed c e k fb) :
    k = dedupKey c e t ∧
    k ∈ (detect s d t f1 f2).1.processedPairs ∧
    ∀ t' : Nat, t' / 30 = t / 30 →
      (shouldProcess (detect s d t f1 f2).1.processedPairs c e t').1 = false := by
  obtain ⟨e0, h0, h1, hfe, h3⟩ := detect_requestFailed_inv h
  rw [detect_run s d e0 t f1 f2 h0 h1 hfe h3] at h ⊢
  obtain ⟨hc, het, hk, hpairs⟩ := processDetected_requestFailed h
  subst hc
  subst het
  refine ⟨hk, ?_, ?_⟩
  · rw [hpairs, hk]
    exact List.mem_cons_self _ _
  · intro t' ht'
    rw [hpairs]
    have hkey : dedupKey
        (pythonFixup (nodeFixup (cnfFixup { s with lastError := e0 } e0) e0) e0).lastCommand
        (jsTrimStr e0) t' =
        dedupKey
          (pythonFixup (nodeFixup (cnfFixup { s with lastError := e0 } e0) e0) e0).lastCommand
          (jsTrimStr e0) t :=
      (dedupKey_bucket_congr _ _ ht')
    simp [shouldProcess, hkey, ← hk]

/-- Witness for C9: the fetch throws on the example failure; the key is
recorded anyway and an identical failure at `t' = 20` (same bucket as
`t = 5`) is suppressed. -/
theorem c9_no_rollback_witness :
    (detect ⟨false, "mk", "", "", [], []⟩ "zsh: command not found: mk\r\n" 5
        (.error ()) (.ok [])).2 =
      .requestFailed "mk" "zsh: command not found: mk"
        "mk|||zsh: command not found: mk|||0" [] ∧
    (shouldProcess (detect ⟨false, "mk", "", "", [], []⟩ "zsh: command not found: mk\r\n" 5
        (.error ()) (.ok [])).1.processedPairs
      "mk" "zsh: command not found: mk" 20).1 = false :=
  ⟨by decide,
    (c9_no_rollback ⟨false, "mk", "", "", [], []⟩ "zsh: command not found: mk\r\n" 5
      (.error ()) (.ok []) "mk" "zsh: command not found: mk"
      "mk|||zsh: command not found: mk|||0" [] (by decide)).2.2 20 (by decide)⟩

/-- C10 (counterexample): with history `["mk -a", "mk -b"]` (oldest first) and
last command `"ls"`, a `command not found: mk` failure makes the orchestrator
adopt `"mk -a"` — the FIRST (oldest) matching history entry, not the most
recent one `"mk -b"` as the claim states. -/
theorem c10_counterexample :
    (detect ⟨false, "ls", "", "", ["mk -a", "mk -b"], []⟩
        "zsh: command not found: mk\r\n" 0
        (.ok [⟨"mkdir", "Create directory"⟩]) (.ok [])).2 =
      .delivered "mk -a" "zsh: command not found: mk"
        "mk -a|||zsh: command not found: mk|||0" [⟨"mkdir", "Create directory"⟩] ∧
    ("mk -a" : String) ≠ "mk -b" := by
  refine ⟨by decide, by decide⟩

/-- C10 (amended): when a command-not-found evidence line yields a name and
neither the node nor the python fixup applies, the orchestrator overwrites
the last submitted command — with the FIRST (oldest) history entry equal to
the name or starting with `name + " "`, else with the name itself unless the
last command already equals it or starts with `name + " "` — BEFORE forming
the dedup key and issuing the request: the outcome's carried command and
dedup key are built from that overwritten value. -/
theorem c10_cnf_overwrite_amended (s : TermState) (d e name : String) (t : Nat)
    (f1 f2 : Except Unit (List CommandSuggestion))
    (h0 : s.processingError = false) (h1 : anyPat d = true)
    (h2 : findEvidence d = some e) (h3 : s.lastError ≠ e)
    (h4 : containsStr e "command not found" = true)
    (h5 : extractCommandName e = some name)
    (hn : isNodeVersionErr e = false) (hpy : isPythonOptErr e = false)
    (hforce : jsTrimStr e ≠ "unknown option --v") :
    ∃ target,
      target = (match s.commandHistory.find?
          (fun c => decide (c = name) || strStartsWith c (name ++ " ")) with
        | some recent => recent
        | none =>
          if !strStartsWith s.lastCommand (name ++ " ") && decide (s.lastCommand ≠ name)
          then name else s.lastCommand) ∧
      (detect s d t f1 f2).2.reqCommand = some target ∧
      (detect s d t f1 f2).2.reqKey = some (dedupKey target (jsTrimStr e) t) := by
  rw [detect_run s d e t f1 f2 h0 h1 h2 h3]
  have hcnf := cnfFixup_spec (s := { s with lastError := e }) h4 h5
  have hnodeid : nodeFixup (cnfFixup { s with lastError := e } e) e =
      cnfFixup { s with lastError := e } e := by
    simp [nodeFixup, hn]
  have hpyid : pythonFixup (cnfFixup { s with lastError := e } e) e =
      cnfFixup { s with lastError := e } e := by
    simp [pythonFixup, hpy]
  rw [hnodeid, hpyid]
  refine ⟨(cnfFixup { s with lastError := e } e).lastCommand, hcnf.2.1, ?_, ?_⟩
  · exact (processDetected_req f1 f2 hcnf.2.2 hforce).1
  · exact (processDetected_req f1 f2 hcnf.2.2 hforce).2

/-- Witness for C10 (amended) on the counterexample scenario: the target is
the oldest matching history entry `"mk -a"`. -/
theorem c10_cnf_overwrite_amended_witness :
    isNodeVersionErr "zsh: command not found: mk" = false ∧
    ∃ target,
      target = (match ["mk -a", "mk -b"].find?
          (fun c => decide (c = "mk") || strStartsWith c ("mk" ++ " ")) with
        | some recent => recent
        | none =>
          if !strStartsWith "ls" ("mk" ++ " ") && decide (("ls" : String) ≠ "mk")
          then "mk" else "ls") ∧
      (detect ⟨false, "ls", "", "", ["mk -a", "mk -b"], []⟩
          "zsh: command not found: mk\r\n" 0
          (.ok [⟨"mkdir", "Create directory"⟩]) (.ok [])).2.reqCommand = some target ∧
      (detect ⟨false, "ls", "", "", ["mk -a", "mk -b"], []⟩
          "zsh: command not found: mk\r\n" 0
          (.ok [⟨"mkdir", "Create directory"⟩]) (.ok [])).2.reqKey =
        some (dedupKey target (jsTrimStr "zsh: command not found: mk") 0) :=
  ⟨by decide,
    c10_cnf_overwrite_amended ⟨false, "ls", "", "", ["mk -a", "mk -b"], []⟩
      "zsh: command not found: mk\r\n" "zsh: command not found: mk" "mk" 0
      (.ok [⟨"mkdir", "Create directory"⟩]) (.ok [])
      rfl (by decide) (by decide) (by decide) (by decide) (by decide)
      (by decide) (by decide) (by decide)⟩
